import Mathlib

/-!
Shallow embedding of the `auditorsaldos` reconciliation engine (`src/app.py`).

The program parses an untyped spreadsheet grid exported from CONTPAQ
("Movimientos, Auxiliares del Catálogo"), classifies rows (account headers,
movement rows, control-total rows), forward-fills account context, builds
per-reference invoices globally and per account, and reconciles recomputed
totals with the ledger's self-reported control totals.

Cells are modelled as strings, exact rationals, or empty (NaN); pandas
`astype(str)` renders NaN as "nan"; `pd.to_numeric(errors="coerce")` maps
unparseable cells to a missing value (`none`); pandas sums skip missing
values; `NaT` dates are `none` and sort last.
-/

namespace AuditorSaldos

/-- A cell of the raw grid: a string, an exact number, or an empty (NaN) cell. -/
inductive Cell where
  | str (s : String)
  | num (q : Rat)
  | empty
deriving DecidableEq, Repr

/-- The `astype(str)` rendering of a cell.  NaN renders as "nan"; an
integer-valued numeric cell renders with the trailing ".0" Python floats get. -/
def cellStr : Cell → String
  | .str s => s
  | .num q => if q.den = 1 then toString q.num ++ ".0" else toString q
  | .empty => "nan"

/-- Whitespace stripping at both ends (`str.strip()` / `.str.strip()`). -/
def strTrim (s : String) : String :=
  String.mk (((s.data.dropWhile Char.isWhitespace).reverse.dropWhile Char.isWhitespace).reverse)

/-- Digit value of a character. -/
def digitVal (c : Char) : Nat := c.toNat - '0'.toNat

/-- Interpret a digit list as a base-10 natural number. -/
def natOfDigits (cs : List Char) : Nat := cs.foldl (fun a c => a * 10 + digitVal c) 0

/-- Parse an unsigned decimal numeral: integer digits with an optional
fractional part; anything else is unparseable. -/
def parseUnsigned (body : List Char) : Option Rat :=
  let ip := body.takeWhile Char.isDigit
  match body.dropWhile Char.isDigit with
  | [] => if ip.isEmpty then none else some ((natOfDigits ip : Rat))
  | '.' :: fp =>
    if fp.all Char.isDigit && (!ip.isEmpty || !fp.isEmpty) then
      some ((natOfDigits ip : Rat) + (natOfDigits fp : Rat) / ((10 : Rat) ^ fp.length))
    else none
  | _ => none

/-- Parse a plain decimal numeral (optional sign, integer part, optional
fractional part), as `pd.to_numeric` accepts for movement amount cells.
Anything else is unparseable and becomes missing. -/
def parseDecimal (s : String) : Option Rat :=
  match s.data with
  | '-' :: r => (parseUnsigned r).map (fun v => -v)
  | '+' :: r => parseUnsigned r
  | cs => parseUnsigned cs

/-- `pd.to_numeric(errors="coerce")` on a cell: numbers pass through, numeric
strings parse, anything else (including NaN) becomes missing — NOT zero. -/
def toNumericCell : Cell → Option Rat
  | .num q => some q
  | .empty => none
  | .str s => parseDecimal s

/-- The account-code regex of the source, `^\d{3}-\d{3}-\d{3}-\d{3}$`:
exactly four groups of three digits separated by hyphens. -/
def matchesAccountCode (s : String) : Bool :=
  match s.data with
  | [a1, a2, a3, '-', b1, b2, b3, '-', c1, c2, c3, '-', d1, d2, d3] =>
    a1.isDigit && a2.isDigit && a3.isDigit && b1.isDigit && b2.isDigit && b3.isDigit &&
    c1.isDigit && c2.isDigit && c3.isDigit && d1.isDigit && d2.isDigit && d3.isDigit
  | _ => false

/-- The movement-row date regex of the source, `^\d{2}/[A-Za-z]{3}/\d{4}$`. -/
def matchesDateStr (s : String) : Bool :=
  match s.data with
  | [d1, d2, '/', a, b, c, '/', y1, y2, y3, y4] =>
    d1.isDigit && d2.isDigit && a.isAlpha && b.isAlpha && c.isAlpha &&
    y1.isDigit && y2.isDigit && y3.isDigit && y4.isDigit
  | _ => false

/-- Does `cs` start with `pat`? -/
def startsWithChars : List Char → List Char → Bool
  | [], _ => true
  | _ :: _, [] => false
  | p :: ps, c :: cs => p = c && startsWithChars ps cs

/-- Substring containment on character lists, as in pandas `str.contains`
with a plain (non-regex-significant) pattern. -/
def containsSub : List Char → List Char → Bool
  | pat, [] => startsWithChars pat []
  | pat, c :: rest => startsWithChars pat (c :: rest) || containsSub pat rest

/-- `s.str.contains(pat)` for a literal pattern: case-sensitive substring test. -/
def strContains (s pat : String) : Bool := containsSub pat.data s.data

/-- Month abbreviation lookup of `parse_spanish_date`, applied after
`[:3].title()` (first letter uppercased, the rest lowercased). -/
def monthNum (a b c : Char) : Option Nat :=
  match String.mk [a.toUpper, b.toLower, c.toLower] with
  | "Ene" => some 1
  | "Feb" => some 2
  | "Mar" => some 3
  | "Abr" => some 4
  | "May" => some 5
  | "Jun" => some 6
  | "Jul" => some 7
  | "Ago" => some 8
  | "Sep" => some 9
  | "Oct" => some 10
  | "Nov" => some 11
  | "Dic" => some 12
  | _ => none

/-- Gregorian leap-year rule. -/
def isLeap (y : Nat) : Bool := (y % 4 = 0 && y % 100 ≠ 0) || y % 400 = 0

/-- Days in a month. -/
def daysInMonth (y m : Nat) : Nat :=
  if m = 2 then (if isLeap y then 29 else 28)
  else if m = 4 || m = 6 || m = 9 || m = 11 then 30
  else 31

/-- Encode a calendar date as `y*10000 + m*100 + d`; numeric order is
chronological order. -/
def dateNum (y m d : Nat) : Nat := y * 10000 + m * 100 + d

/-- `parse_spanish_date`: strip, match `DD/Mon/YYYY`, translate the month
abbreviation, and hand to `pd.to_datetime(errors="coerce")`, which yields NaT
(`none`) for calendar-invalid days or dates outside the pandas Timestamp
range (midnights of 1677-09-22 through 2262-04-11). -/
def parseSpanishDate (s0 : String) : Option Nat :=
  match (strTrim s0).data with
  | [d1, d2, '/', a, b, c, '/', y1, y2, y3, y4] =>
    if d1.isDigit && d2.isDigit && a.isAlpha && b.isAlpha && c.isAlpha &&
        y1.isDigit && y2.isDigit && y3.isDigit && y4.isDigit then
      match monthNum a b c with
      | none => none
      | some m =>
        let d := natOfDigits [d1, d2]
        let y := natOfDigits [y1, y2, y3, y4]
        if 1 ≤ d && d ≤ daysInMonth y m &&
            dateNum 1677 9 22 ≤ dateNum y m d && dateNum y m d ≤ dateNum 2262 4 11
        then some (dateNum y m d)
        else none
    else none
  | _ => none

/-- One raw grid row: the eight positional columns read by the program. -/
structure Row where
  c0 : Cell := .empty
  c1 : Cell := .empty
  c2 : Cell := .empty
  c3 : Cell := .empty
  c4 : Cell := .empty
  c5 : Cell := .empty
  c6 : Cell := .empty
  c7 : Cell := .empty
deriving DecidableEq, Repr

/-- `is_account_header`: column 0 matches the strict four-group account-code
regex AND column 6 contains the literal "Saldo inicial" (case-sensitively). -/
def isAccountHeader (r : Row) : Bool :=
  matchesAccountCode (cellStr r.c0) && strContains (cellStr r.c6) "Saldo inicial"

/-- `is_date_row`: column 0 matches the `DD/Mon/YYYY` movement-row pattern. -/
def isDateRow (r : Row) : Bool := matchesDateStr (cellStr r.c0)

/-- Forward-filled account context: the last-seen header's code and name
(`ffill` of the `np.where(is_account_header, …, nan)` columns). -/
structure Ctx where
  code : Option String := none
  name : Option Cell := none
deriving DecidableEq, Repr

/-- Effect of one row on the forward-filled context: a header row installs its
column 0 as code; its column 1 becomes the name unless that cell is NaN, in
which case `ffill` keeps the previous name. -/
def updateCtx (ctx : Ctx) (r : Row) : Ctx :=
  if isAccountHeader r then
    { code := some (cellStr r.c0),
      name := match r.c1 with
              | .empty => ctx.name
              | v => some v }
  else ctx

/-- The context in force after folding a list of rows. -/
def ctxAfter (ctx : Ctx) (rs : List Row) : Ctx := rs.foldl updateCtx ctx

/-- One classified movement record (a row matching the date pattern), with the
renamed columns of `procesar_movimientos` and its forward-filled account. -/
structure Movement where
  fecha : Option Nat := none
  referencia : Option String := none
  cargos : Option Rat := none
  abonos : Option Rat := none
  saldo : Option Rat := none
  account_code : Option String := none
  account_name : Option Cell := none
deriving DecidableEq, Repr

/-- Reference cleaning: `astype(str).str.strip()` then `"nan"`/`""` ↦ missing. -/
def cleanReferencia (c : Cell) : Option String :=
  let s := strTrim (cellStr c)
  if s = "nan" || s = "" then none else some s

/-- Build the movement record of a date row under a given account context. -/
def mkMovement (ctx : Ctx) (r : Row) : Movement :=
  { fecha := parseSpanishDate (cellStr r.c0)
    referencia := cleanReferencia r.c4
    cargos := toNumericCell r.c5
    abonos := toNumericCell r.c6
    saldo := toNumericCell r.c7
    account_code := ctx.code
    account_name := ctx.name }

/-- Movement extraction fold: every row first updates the forward-filled
context (a header row's own context is itself), then a date row emits a
movement under the updated context. -/
def movsFrom (ctx : Ctx) : List Row → List Movement
  | [] => []
  | r :: rs =>
    let ctx2 := updateCtx ctx r
    if isDateRow r then mkMovement ctx2 r :: movsFrom ctx2 rs
    else movsFrom ctx2 rs

/-- All movement rows of the grid with forward-filled accounts (`movs`). -/
def movimientos (g : List Row) : List Movement := movsFrom {} g

/-- `movs_valid`: movement rows whose cleaned reference is present.  No other
condition is imposed: the account context may be missing. -/
def movsValid (g : List Row) : List Movement :=
  (movimientos g).filter (fun m => m.referencia.isSome)

/-- Sum of optional amounts, skipping missing values (pandas `sum`). -/
def optSum (l : List (Option Rat)) : Rat := (l.map (fun o => o.getD 0)).sum

/-- `total_cargos_movs`: debit total over the valid movements (NaN skipped). -/
def totalCargosMovs (ms : List Movement) : Rat := optSum (ms.map (·.cargos))

/-- `total_abonos_movs`: credit total over the valid movements (NaN skipped). -/
def totalAbonosMovs (ms : List Movement) : Rat := optSum (ms.map (·.abonos))

/-- The global control-total row: column 0 strips to "Total Clientes :". -/
def isTotalClientesRow (r : Row) : Bool := strTrim (cellStr r.c0) = "Total Clientes :"

/-- The `resumen_auxiliar` dictionary. -/
structure Resumen where
  total_cargos_movs : Rat
  total_abonos_movs : Rat
  saldo_neto_movs : Rat
  total_cargos_aux : Option Rat
  total_abonos_aux : Option Rat
  saldo_final_aux : Option Rat
  saldo_inicial_implicito : Option Rat
deriving DecidableEq, Repr

/-- `resumen_auxiliar`: movement totals plus the first "Total Clientes :" row's
reported figures; each reported figure is missing (`None`), not zero, when the
row is absent or its cell fails numeric coercion, and the implied opening
balance is missing whenever the reported final balance is. -/
def resumenAuxiliar (g : List Row) : Resumen :=
  let ms := movsValid g
  let tc := totalCargosMovs ms
  let ta := totalAbonosMovs ms
  let neto := tc - ta
  let row? := g.find? isTotalClientesRow
  let finalAux := row?.bind (fun r => toNumericCell r.c3)
  { total_cargos_movs := tc
    total_abonos_movs := ta
    saldo_neto_movs := neto
    total_cargos_aux := row?.bind (fun r => toNumericCell r.c1)
    total_abonos_aux := row?.bind (fun r => toNumericCell r.c2)
    saldo_final_aux := finalAux
    saldo_inicial_implicito := finalAux.map (fun f => f - neto) }

/-- The global difference metric of the dashboard: reported final balance
minus recomputed movement net, shown as "N/D" (missing) when the reported
balance is unavailable. -/
def diferenciaGlobal (res : Resumen) : Option Rat :=
  match res.saldo_final_aux with
  | some s => some (s - res.saldo_neto_movs)
  | none => none

/-- Per-account control-total extraction fold: rows whose column 4 strips to
"Total:" are collected together with the account context in force there. -/
def totRowsFrom (ctx : Ctx) : List Row → List (Ctx × Row)
  | [] => []
  | r :: rs =>
    let ctx2 := updateCtx ctx r
    if strTrim (cellStr r.c4) = "Total:" then (ctx2, r) :: totRowsFrom ctx2 rs
    else totRowsFrom ctx2 rs

/-- `totales_cuentas_aux` as a lookup: the summed reported debit/credit/final
figures of the "Total:" rows grouped under a given (code, name) key; rows with
a missing code or name are dropped by the groupby, and a key with no rows has
no entry. -/
def totalesCuentasAux (g : List Row) (k : String × Cell) : Option (Rat × Rat × Rat) :=
  let rows := (totRowsFrom {} g).filter
    (fun p => decide (p.1.code = some k.1 ∧ p.1.name = some k.2))
  if rows.isEmpty then none
  else some (optSum (rows.map (fun p => toNumericCell p.2.c5)),
             optSum (rows.map (fun p => toNumericCell p.2.c6)),
             optSum (rows.map (fun p => toNumericCell p.2.c7)))

/-- The movements carrying a given reference key. -/
def movsDeRef (ms : List Movement) (r : String) : List Movement :=
  ms.filter (fun m => decide (m.referencia = some r))

/-- `es_cargo_pos`: the debit is present and strictly positive (NaN compares
false). -/
def esCargoPos (m : Movement) : Bool := decide (0 < m.cargos.getD 0)

/-- First element attaining the maximal key (the survivor of a descending sort
followed by `drop_duplicates`). -/
def pickMax {α : Type} [LinearOrder α] (key : Movement → α) : List Movement → Option Movement
  | [] => none
  | m :: ms =>
    match pickMax key ms with
    | none => some m
    | some b => if key m < key b then some b else some m

/-- First element attaining the minimal key (the survivor of an ascending sort
followed by `drop_duplicates`). -/
def pickMin {α : Type} [LinearOrder α] (key : Movement → α) : List Movement → Option Movement
  | [] => none
  | m :: ms =>
    match pickMin key ms with
    | none => some m
    | some b => if key b < key m then some b else some m

/-- Sort key of `sort_values(["referencia", "fecha"])`: a missing date (NaT)
sorts after every real date. -/
def fechaKey (m : Movement) : WithTop Nat :=
  match m.fecha with
  | some d => (d : WithTop Nat)
  | none => ⊤

/-- `main_account` resolution for one reference: prefer the account of the
largest positive-debit movement; failing that, the account of the earliest
movement (NaT last); an empty group has no account. -/
def mainAccount (msr : List Movement) : Option String × Option Cell :=
  match pickMax (fun m => m.cargos.getD 0) (msr.filter esCargoPos) with
  | some m => (m.account_code, m.account_name)
  | none =>
    match pickMin fechaKey msr with
    | some m => (m.account_code, m.account_name)
    | none => (none, none)

/-- Minimum of a list of naturals (pandas `min` over non-null dates). -/
def listMin? : List Nat → Option Nat
  | [] => none
  | x :: xs =>
    match listMin? xs with
    | none => some x
    | some y => some (Nat.min x y)

/-- Maximum of a list of naturals (pandas `max` over non-null dates). -/
def listMax? : List Nat → Option Nat
  | [] => none
  | x :: xs =>
    match listMax? xs with
    | none => some x
    | some y => some (Nat.max x y)

/-- One row of the global invoice table (`construir_facturas_global`). -/
structure Factura where
  fecha_factura : Option Nat := none
  cargos_total : Rat := 0
  abonos_total : Rat := 0
  account_code : Option String := none
  account_name : Option Cell := none
  num_cuentas : Nat := 0
  cruza_cuentas : Bool := false
  saldo_factura : Rat := 0
deriving DecidableEq, Repr

/-- `construir_facturas_global` as a lookup by reference key: earliest non-null
date, debit/credit totals (NaN skipped), primary account, number of distinct
non-null accounts, the `cruza_cuentas` flag (`num_cuentas > 1`), and the net
balance; a key carried by no movement has no invoice. -/
def facturasGlobal (ms : List Movement) (r : String) : Option Factura :=
  let msr := movsDeRef ms r
  if msr.isEmpty then none
  else
    let ct := optSum (msr.map (·.cargos))
    let ab := optSum (msr.map (·.abonos))
    let acc := mainAccount msr
    let n := ((msr.filterMap (·.account_code)).dedup).length
    some { fecha_factura := listMin? (msr.filterMap (·.fecha))
           cargos_total := ct
           abonos_total := ab
           account_code := acc.1
           account_name := acc.2
           num_cuentas := n
           cruza_cuentas := decide (1 < n)
           saldo_factura := ct - ab }

/-- The movements of one (account code, account name, reference) group. -/
def movsDeCuentaRef (ms : List Movement) (c : String) (n : Cell) (r : String) : List Movement :=
  ms.filter (fun m =>
    decide (m.account_code = some c ∧ m.account_name = some n ∧ m.referencia = some r))

/-- One row of the per-account invoice table. -/
structure FacturaCuenta where
  fecha_factura : Option Nat := none
  cargos_total : Rat := 0
  abonos_total : Rat := 0
  saldo_factura : Rat := 0
deriving DecidableEq, Repr

/-- `construir_facturas_por_cuenta` as a lookup by (code, name, reference):
the same aggregation restricted to one account; the groupby drops movements
whose code or name is missing, and an empty group has no row. -/
def facturasCuenta (ms : List Movement) (c : String) (n : Cell) (r : String) :
    Option FacturaCuenta :=
  let grp := movsDeCuentaRef ms c n r
  if grp.isEmpty then none
  else
    let ct := optSum (grp.map (·.cargos))
    let ab := optSum (grp.map (·.abonos))
    some { fecha_factura := listMin? (grp.filterMap (·.fecha))
           cargos_total := ct
           abonos_total := ab
           saldo_factura := ct - ab }

/-- Net balance of a per-account invoice row, zero when the row is absent. -/
def saldoCuenta (ms : List Movement) (c : String) (n : Cell) (r : String) : Rat :=
  match facturasCuenta ms c n r with
  | some f => f.saldo_factura
  | none => 0

/-- Net balance of the global invoice of a reference, zero when absent. -/
def saldoGlobalDe (ms : List Movement) (r : String) : Rat :=
  match facturasGlobal ms r with
  | some f => f.saldo_factura
  | none => 0

/-- The distinct (code, name) account pairs among the movements of a
reference; movements with a missing code or name contribute no pair. -/
def accountPairs (ms : List Movement) (r : String) : List (String × Cell) :=
  ((movsDeRef ms r).filterMap (fun m =>
    match m.account_code, m.account_name with
    | some c, some n => some (c, n)
    | _, _ => none)).dedup

/-- `filtrar_por_fecha` row predicate: a bound only applies when supplied, and
a row with a missing invoice date fails every supplied bound (pandas `NaT`
comparisons are false). -/
def pasaFecha (f : Factura) (desde hasta : Option Nat) : Bool :=
  (match desde with
   | none => true
   | some d => match f.fecha_factura with
               | some x => decide (d ≤ x)
               | none => false) &&
  (match hasta with
   | none => true
   | some h => match f.fecha_factura with
               | some x => decide (x ≤ h)
               | none => false)

/-- `filtrar_por_fecha` on an invoice table. -/
def filtrarPorFecha (fs : List Factura) (desde hasta : Option Nat) : List Factura :=
  fs.filter (fun f => pasaFecha f desde hasta)

/-- `facturas_global_pend`: invoices with strictly positive net balance. -/
def facturasGlobalPend (fs : List Factura) : List Factura :=
  fs.filter (fun f => decide (0 < f.saldo_factura))

/-- `df_tab3`: the crossed-pending view — pending invoices, date-filtered,
restricted to the `cruza_cuentas` flag. -/
def dfTab3 (fs : List Factura) (desde hasta : Option Nat) : List Factura :=
  (filtrarPorFecha (facturasGlobalPend fs) desde hasta).filter (·.cruza_cuentas)

/-- `df_tab4`: the crossed-paid view — date-filtered invoices with the
`cruza_cuentas` flag and net balance exactly zero. -/
def dfTab4 (fs : List Factura) (desde hasta : Option Nat) : List Factura :=
  (filtrarPorFecha fs desde hasta).filter
    (fun f => f.cruza_cuentas && decide (f.saldo_factura = 0))

/-- Modelled from the spec: the cross-account anomaly predicate as the spec
words it — more than one distinct account AND some account partition with a
positive debit sum AND some account partition with a positive credit sum.
Written for comparison with the code's `cruza_cuentas` flag. -/
def specCrossAnomaly (ms : List Movement) (r : String) : Bool :=
  let msr := movsDeRef ms r
  let accs := (msr.filterMap (·.account_code)).dedup
  decide (1 < accs.length) &&
  accs.any (fun c =>
    decide (0 < optSum ((msr.filter (fun m => decide (m.account_code = some c))).map (·.cargos)))) &&
  accs.any (fun c =>
    decide (0 < optSum ((msr.filter (fun m => decide (m.account_code = some c))).map (·.abonos))))

/-- Modelled from the spec: the account-code shape the spec describes — three
groups of three digits separated by hyphens, with an optional fourth group. -/
def specAccountCode (s : String) : Bool :=
  match s.data with
  | [a1, a2, a3, '-', b1, b2, b3, '-', c1, c2, c3] =>
    a1.isDigit && a2.isDigit && a3.isDigit && b1.isDigit && b2.isDigit && b3.isDigit &&
    c1.isDigit && c2.isDigit && c3.isDigit
  | [a1, a2, a3, '-', b1, b2, b3, '-', c1, c2, c3, '-', d1, d2, d3] =>
    a1.isDigit && a2.isDigit && a3.isDigit && b1.isDigit && b2.isDigit && b3.isDigit &&
    c1.isDigit && c2.isDigit && c3.isDigit && d1.isDigit && d2.isDigit && d3.isDigit
  | _ => false

/-- Case-insensitive substring containment. -/
def containsInsensitive (s pat : String) : Bool :=
  containsSub (pat.data.map Char.toLower) (s.data.map Char.toLower)

/-- Modelled from the spec: the account-header predicate as the spec words
it — column 0 matches the optional-fourth-group code shape AND ANY column
contains "Saldo inicial" case-insensitively. -/
def specIsAccountHeader (r : Row) : Bool :=
  specAccountCode (cellStr r.c0) &&
  [r.c0, r.c1, r.c2, r.c3, r.c4, r.c5, r.c6, r.c7].any
    (fun c => containsInsensitive (cellStr c) "Saldo inicial")

/-! ## General helper lemmas -/

theorem takeWhile_digits_nil (l : List Char) (h : ∀ c ∈ l, c.isDigit = false) :
    l.takeWhile Char.isDigit = [] := by
  cases l with
  | nil => rfl
  | cons c cs => simp [List.takeWhile_cons, h c (by simp)]

theorem dropWhile_digits_id (l : List Char) (h : ∀ c ∈ l, c.isDigit = false) :
    l.dropWhile Char.isDigit = l := by
  cases l with
  | nil => rfl
  | cons c cs => simp [List.dropWhile_cons, h c (by simp)]

theorem parseUnsigned_none (body : List Char) (h : ∀ c ∈ body, c.isDigit = false) :
    parseUnsigned body = none := by
  have hip := takeWhile_digits_nil body h
  have hdp := dropWhile_digits_id body h
  unfold parseUnsigned
  rw [hip, hdp]
  cases body with
  | nil => rfl
  | cons c rest =>
    by_cases hc : c = '.'
    · subst hc
      cases rest with
      | nil => rfl
      | cons c2 r2 => simp [List.all_cons, h c2 (by simp)]
    · split
      all_goals try rfl
      all_goals simp_all

theorem parseDecimal_none (s : String) (h : ∀ c ∈ s.data, c.isDigit = false) :
    parseDecimal s = none := by
  unfold parseDecimal
  split
  · next r heq =>
    have hr : ∀ c ∈ r, c.isDigit = false := by
      intro c hc
      exact h c (by rw [heq]; exact List.mem_cons_of_mem _ hc)
    simp [parseUnsigned_none r hr]
  · next r heq =>
    have hr : ∀ c ∈ r, c.isDigit = false := by
      intro c hc
      exact h c (by rw [heq]; exact List.mem_cons_of_mem _ hc)
    exact parseUnsigned_none r hr
  · exact parseUnsigned_none s.data h

theorem optSum_cons (o : Option Rat) (l : List (Option Rat)) :
    optSum (o :: l) = o.getD 0 + optSum l := by
  simp [optSum]

/-! ## C8 — account-header row classification -/

/-- C8 (amended): a row is classified as an account-header row iff column 0
matches the strict four-group pattern `\d{3}-\d{3}-\d{3}-\d{3}` (a fourth
group is mandatory, not optional) and column 6 — only column 6 — contains
the phrase "Saldo inicial" case-sensitively. -/
theorem c8_header_rule (r : Row) :
    isAccountHeader r = true ↔
      (matchesAccountCode (cellStr r.c0) = true ∧
       strContains (cellStr r.c6) "Saldo inicial" = true) := by
  simp [isAccountHeader, Bool.and_eq_true]

def c8RowCaseInsensitive : Row :=
  { c0 := .str "111-222-333-444", c1 := .str "CLIENTE", c6 := .str "SALDO INICIAL :" }

def c8RowThreeGroups : Row :=
  { c0 := .str "111-222-333", c1 := .str "CLIENTE", c6 := .str "Saldo inicial :" }

def c8RowOtherColumn : Row :=
  { c0 := .str "111-222-333-444", c1 := .str "CLIENTE", c5 := .str "Saldo inicial :" }

/-- C8 counterexample: three rows the spec's predicate (case-insensitive,
optional fourth group, any column) classifies as headers, while the code
classifies none of them as headers. -/
theorem c8_counterexample :
    specIsAccountHeader c8RowCaseInsensitive = true
    ∧ isAccountHeader c8RowCaseInsensitive = false
    ∧ specIsAccountHeader c8RowThreeGroups = true
    ∧ isAccountHeader c8RowThreeGroups = false
    ∧ specIsAccountHeader c8RowOtherColumn = true
    ∧ isAccountHeader c8RowOtherColumn = false := by
  decide

/-! ## C2 — numeric coercion of amount cells -/

def c2Grid : List Row :=
  [{ c0 := .str "110-001-001-001", c1 := .str "CLIENTE X", c6 := .str "Saldo inicial :" },
   { c0 := .str "02/Ene/2025", c4 := .str "R1",
     c5 := .str "abc", c6 := .str "x-y", c7 := .str "?" }]

/-- C2 counterexample: a movement row whose debit, credit and running-balance
cells are non-numeric yields a movement whose amounts are all missing
(`none`), not zero, contradicting the claim that every Movement has those
fields defined as numbers. -/
theorem c2_counterexample :
    (movsValid c2Grid).map (fun m => (m.cargos, m.abonos, m.saldo)) = [(none, none, none)]
    ∧ ((none : Option Rat), (none : Option Rat), (none : Option Rat)) ≠ (some 0, some 0, some 0) := by
  decide

/-- C2 (amended): coercing a non-numeric amount cell yields a missing value
(`none`), not zero; aggregation then skips missing amounts, so a movement with
missing debit and credit contributes zero to the movement totals. -/
theorem c2_coerce_missing (s : String) (hs : ∀ c ∈ s.data, c.isDigit = false)
    (ms : List Movement) (m : Movement) (hc : m.cargos = none) (ha : m.abonos = none) :
    toNumericCell (.str s) = none
    ∧ totalCargosMovs (m :: ms) = totalCargosMovs ms
    ∧ totalAbonosMovs (m :: ms) = totalAbonosMovs ms := by
  refine ⟨parseDecimal_none s hs, ?_, ?_⟩
  · simp [totalCargosMovs, optSum, hc]
  · simp [totalAbonosMovs, optSum, ha]

def c2MovMissing : Movement := { referencia := some "R1" }

def c2MovOther : Movement := { referencia := some "R2", cargos := some 7, abonos := some 2 }

/-- Witness for C2 at a concrete input. -/
theorem c2_coerce_missing_witness :
    (∀ c ∈ "abc".data, c.isDigit = false)
    ∧ (toNumericCell (.str "abc") = none
       ∧ totalCargosMovs (c2MovMissing :: [c2MovOther]) = totalCargosMovs [c2MovOther]
       ∧ totalAbonosMovs (c2MovMissing :: [c2MovOther]) = totalAbonosMovs [c2MovOther]) :=
  ⟨by decide, c2_coerce_missing "abc" (by decide) [c2MovOther] c2MovMissing rfl rfl⟩

/-! ## Destructuring the global invoice builder -/

theorem facturasGlobal_some_eq (ms : List Movement) (r : String) (f : Factura)
    (hf : facturasGlobal ms r = some f) :
    movsDeRef ms r ≠ []
    ∧ f = { fecha_factura := listMin? ((movsDeRef ms r).filterMap (fun m => m.fecha)),
            cargos_total := optSum ((movsDeRef ms r).map (fun m => m.cargos)),
            abonos_total := optSum ((movsDeRef ms r).map (fun m => m.abonos)),
            account_code := (mainAccount (movsDeRef ms r)).1,
            account_name := (mainAccount (movsDeRef ms r)).2,
            num_cuentas := (((movsDeRef ms r).filterMap (fun m => m.account_code)).dedup).length,
            cruza_cuentas :=
              decide (1 < (((movsDeRef ms r).filterMap (fun m => m.account_code)).dedup).length),
            saldo_factura := optSum ((movsDeRef ms r).map (fun m => m.cargos))
              - optSum ((movsDeRef ms r).map (fun m => m.abonos)) } := by
  by_cases h : (movsDeRef ms r).isEmpty = true
  · simp only [facturasGlobal, h, if_true] at hf
    cases hf
  · simp only [facturasGlobal, h, if_false, Bool.false_eq_true, Option.some.injEq] at hf
    refine ⟨fun hnil => h (by simp [hnil]), hf.symm⟩

/-! ## C4 — reference aliasing -/

/-- C4 (amended): no alias resolution is performed; the global aggregation
pools exactly the movements whose cleaned reference equals the invoice key,
so a bare numeric reference and its prefixed counterpart form two separate
invoices rather than one. -/
theorem c4_exact_key (ms : List Movement) (r : String) (f : Factura)
    (hf : facturasGlobal ms r = some f) :
    f.cargos_total = optSum ((movsDeRef ms r).map (fun m => m.cargos))
    ∧ f.abonos_total = optSum ((movsDeRef ms r).map (fun m => m.abonos))
    ∧ movsDeRef ms r ≠ [] := by
  obtain ⟨hne, rfl⟩ := facturasGlobal_some_eq ms r f hf
  exact ⟨rfl, rfl, hne⟩

def c4Movs : List Movement :=
  [{ referencia := some "123", cargos := some 100,
     account_code := some "001-001-001-001", account_name := some (.str "A") },
   { referencia := some "NCTA123", abonos := some 100,
     account_code := some "001-001-001-001", account_name := some (.str "A") }]

/-- C4 counterexample: with normalized values {"123", "NCTA123"} present, the
movement tagged "123" stays in its own invoice keyed "123" (debit 100, credit
0) and the invoice keyed "NCTA123" holds only the credit — the two are never
merged into a single invoice keyed "NCTA123". -/
theorem c4_counterexample :
    (facturasGlobal c4Movs "123").map (fun f => (f.cargos_total, f.abonos_total))
      = some (100, 0)
    ∧ (facturasGlobal c4Movs "NCTA123").map (fun f => (f.cargos_total, f.abonos_total))
      = some (0, 100) := by
  constructor <;>
    simp +decide [facturasGlobal, movsDeRef, optSum, c4Movs]

/-- Witness for C4 at a concrete input. -/
theorem c4_exact_key_witness :
    (facturasGlobal c4Movs "123" = some
      { fecha_factura := none, cargos_total := 100, abonos_total := 0,
        account_code := some "001-001-001-001", account_name := some (.str "A"),
        num_cuentas := 1, cruza_cuentas := false, saldo_factura := 100 })
    ∧ ((100 : Rat) = optSum ((movsDeRef c4Movs "123").map (fun m => m.cargos))
       ∧ (0 : Rat) = optSum ((movsDeRef c4Movs "123").map (fun m => m.abonos))
       ∧ movsDeRef c4Movs "123" ≠ []) := by
  have hf : facturasGlobal c4Movs "123" = some
      { fecha_factura := none, cargos_total := 100, abonos_total := 0,
        account_code := some "001-001-001-001", account_name := some (.str "A"),
        num_cuentas := 1, cruza_cuentas := false, saldo_factura := 100 } := by
    simp +decide [facturasGlobal, movsDeRef, optSum, c4Movs, mainAccount, pickMax,
      esCargoPos, listMin?]
  exact ⟨hf, c4_exact_key c4Movs "123" _ hf⟩

/-! ## C1 — cross-account anomaly flagging -/

/-- C1 (amended): the code's cross-account flag `cruza_cuentas` is set iff the
reference's movements span more than one distinct (non-missing) account —
no debit/credit sign condition is imposed. -/
theorem c1_cruza_iff (ms : List Movement) (r : String) (f : Factura)
    (hf : facturasGlobal ms r = some f) :
    (f.cruza_cuentas = true ↔
      1 < (((movsDeRef ms r).filterMap (fun m => m.account_code)).dedup).length)
    ∧ f.num_cuentas = (((movsDeRef ms r).filterMap (fun m => m.account_code)).dedup).length := by
  obtain ⟨-, rfl⟩ := facturasGlobal_some_eq ms r f hf
  exact ⟨decide_eq_true_iff, rfl⟩

def c1Movs : List Movement :=
  [{ referencia := some "X", cargos := some 100,
     account_code := some "001-001-001-001", account_name := some (.str "A") },
   { referencia := some "X", cargos := some 100,
     account_code := some "002-001-001-001", account_name := some (.str "B") }]

/-- C1 counterexample: a reference with debits only, split over two accounts,
fails the spec's anomaly condition (no partition has a positive credit sum),
yet the code still sets its `cruza_cuentas` flag — and, having positive net
balance, it is shown in the crossed-pending view. -/
theorem c1_counterexample :
    specCrossAnomaly c1Movs "X" = false
    ∧ (facturasGlobal c1Movs "X").map (fun f => f.cruza_cuentas) = some true := by
  constructor
  · simp +decide [specCrossAnomaly, movsDeRef, optSum, c1Movs]
  · simp +decide [facturasGlobal, movsDeRef, c1Movs]

/-- Witness for C1 at a concrete input. -/
theorem c1_cruza_iff_witness :
    (facturasGlobal c1Movs "X" = some
      { fecha_factura := none, cargos_total := 200, abonos_total := 0,
        account_code := some "001-001-001-001", account_name := some (.str "A"),
        num_cuentas := 2, cruza_cuentas := true, saldo_factura := 200 })
    ∧ ((true = true ↔
         1 < (((movsDeRef c1Movs "X").filterMap (fun m => m.account_code)).dedup).length)
       ∧ 2 = (((movsDeRef c1Movs "X").filterMap (fun m => m.account_code)).dedup).length) := by
  have hf : facturasGlobal c1Movs "X" = some
      { fecha_factura := none, cargos_total := 200, abonos_total := 0,
        account_code := some "001-001-001-001", account_name := some (.str "A"),
        num_cuentas := 2, cruza_cuentas := true, saldo_factura := 200 } := by
    simp +decide [facturasGlobal, movsDeRef, optSum, c1Movs, mainAccount, pickMax,
      esCargoPos, listMin?]
    norm_num
  exact ⟨hf, c1_cruza_iff c1Movs "X" _ hf⟩

/-! ## C10 — crossed-paid and crossed-pending views -/

/-- C10: a cross-account invoice appears in the crossed-paid view iff its net
balance is exactly zero (no tolerance), in the crossed-pending view iff its
net balance is strictly positive, and an invoice with strictly negative net
balance appears in neither view. -/
theorem c10_crossed_views (fs : List Factura) (desde hasta : Option Nat) (f : Factura) :
    (f ∈ dfTab4 fs desde hasta ↔
      (f ∈ filtrarPorFecha fs desde hasta ∧ f.cruza_cuentas = true ∧ f.saldo_factura = 0))
    ∧ (f ∈ dfTab3 fs desde hasta ↔
      (f ∈ filtrarPorFecha fs desde hasta ∧ f.cruza_cuentas = true ∧ 0 < f.saldo_factura))
    ∧ (f.saldo_factura < 0 →
        f ∉ dfTab3 fs desde hasta ∧ f ∉ dfTab4 fs desde hasta) := by
  have h4 : f ∈ dfTab4 fs desde hasta ↔
      (f ∈ filtrarPorFecha fs desde hasta ∧ f.cruza_cuentas = true ∧ f.saldo_factura = 0) := by
    simp only [dfTab4, filtrarPorFecha, List.mem_filter, Bool.and_eq_true,
      decide_eq_true_iff]
    try tauto
  have h3 : f ∈ dfTab3 fs desde hasta ↔
      (f ∈ filtrarPorFecha fs desde hasta ∧ f.cruza_cuentas = true ∧ 0 < f.saldo_factura) := by
    simp only [dfTab3, facturasGlobalPend, filtrarPorFecha, List.mem_filter,
      Bool.and_eq_true, decide_eq_true_iff]
    try tauto
  refine ⟨h4, h3, fun hneg => ⟨?_, ?_⟩⟩
  · intro hmem
    exact absurd ((h3.mp hmem).2.2) (by linarith)
  · intro hmem
    exact absurd ((h4.mp hmem).2.2) (by linarith)

def c10F : Factura := { cruza_cuentas := true, saldo_factura := -5 }

/-- Witness for C10 at a concrete input. -/
theorem c10_crossed_views_witness :
    (dfTab3 [c10F] none none = [] ∧ dfTab4 [c10F] none none = [])
    ∧ ((c10F ∈ dfTab4 [c10F] none none ↔
        (c10F ∈ filtrarPorFecha [c10F] none none ∧ c10F.cruza_cuentas = true
          ∧ c10F.saldo_factura = 0))
      ∧ (c10F ∈ dfTab3 [c10F] none none ↔
        (c10F ∈ filtrarPorFecha [c10F] none none ∧ c10F.cruza_cuentas = true
          ∧ 0 < c10F.saldo_factura))
      ∧ (c10F.saldo_factura < 0 →
          c10F ∉ dfTab3 [c10F] none none ∧ c10F ∉ dfTab4 [c10F] none none)) :=
  ⟨by simp +decide [dfTab3, dfTab4, filtrarPorFecha, facturasGlobalPend, pasaFecha, c10F],
   c10_crossed_views [c10F] none none c10F⟩

/-! ## C3 — full-range date filtering -/

theorem listMin?_eq_none (l : List Nat) : listMin? l = none ↔ l = [] := by
  cases l with
  | nil => simp [listMin?]
  | cons x xs => cases h : listMin? xs <;> simp [listMin?, h]

theorem listMin?_le (l : List Nat) (a : Nat) (h : listMin? l = some a) :
    ∀ x ∈ l, a ≤ x := by
  induction l generalizing a with
  | nil => cases h
  | cons x xs ih =>
    intro z hz
    cases hx : listMin? xs with
    | none =>
      have hxs : xs = [] := (listMin?_eq_none xs).mp hx
      subst hxs
      simp [listMin?] at h
      simp at hz
      omega
    | some y =>
      simp only [listMin?, hx] at h
      injection h with h
      rcases List.mem_cons.mp hz with hzx | hzxs
      · subst hzx
        calc a = Nat.min z y := h.symm
          _ ≤ z := Nat.min_le_left _ _
      · calc a = Nat.min x y := h.symm
          _ ≤ Nat.min x y := le_refl _
          _ ≤ y := Nat.min_le_right _ _
          _ ≤ z := ih y hx z hzxs

theorem listMax?_eq_none (l : List Nat) : listMax? l = none ↔ l = [] := by
  cases l with
  | nil => simp [listMax?]
  | cons x xs => cases h : listMax? xs <;> simp [listMax?, h]

theorem listMax?_ge (l : List Nat) (a : Nat) (h : listMax? l = some a) :
    ∀ x ∈ l, x ≤ a := by
  induction l generalizing a with
  | nil => cases h
  | cons x xs ih =>
    intro z hz
    cases hx : listMax? xs with
    | none =>
      have hxs : xs = [] := (listMax?_eq_none xs).mp hx
      subst hxs
      simp [listMax?] at h
      simp at hz
      omega
    | some y =>
      simp only [listMax?, hx] at h
      injection h with h
      rcases List.mem_cons.mp hz with hzx | hzxs
      · subst hzx
        calc z ≤ Nat.max z y := Nat.le_max_left _ _
          _ = a := h
      · calc z ≤ y := ih y hx z hzxs
          _ ≤ Nat.max x y := Nat.le_max_right _ _
          _ = a := h

/-- C3 (amended): filtering an invoice table by the full available date range
returns exactly the invoices whose `first_date` is present; invoices with a
missing (all-NaT) date are dropped by the filter, not retained. -/
theorem c3_full_range (fs : List Factura) (dmin dmax : Nat)
    (h1 : listMin? (fs.filterMap (fun f => f.fecha_factura)) = some dmin)
    (h2 : listMax? (fs.filterMap (fun f => f.fecha_factura)) = some dmax) :
    filtrarPorFecha fs (some dmin) (some dmax)
      = fs.filter (fun f => f.fecha_factura.isSome) := by
  unfold filtrarPorFecha
  apply List.filter_congr
  intro f hf
  cases hd : f.fecha_factura with
  | none => simp [pasaFecha, hd]
  | some x =>
    have hx : x ∈ fs.filterMap (fun f => f.fecha_factura) :=
      List.mem_filterMap.mpr ⟨f, hf, hd⟩
    have hmin := listMin?_le _ _ h1 x hx
    have hmax := listMax?_ge _ _ h2 x hx
    simp [pasaFecha, hd, hmin, hmax]

def c3Fs : List Factura :=
  [{ fecha_factura := some 20250102, saldo_factura := 5 },
   { fecha_factura := none, saldo_factura := 7 }]

/-- C3 counterexample: over a table holding one dated invoice and one invoice
with a missing date, the full-range filter [min, max] = [2025-01-02,
2025-01-02] drops the null-dated invoice, so it does not reproduce the
unfiltered table. -/
theorem c3_counterexample :
    listMin? (c3Fs.filterMap (fun f => f.fecha_factura)) = some 20250102
    ∧ listMax? (c3Fs.filterMap (fun f => f.fecha_factura)) = some 20250102
    ∧ filtrarPorFecha c3Fs (some 20250102) (some 20250102) ≠ c3Fs := by
  refine ⟨by decide, by decide, ?_⟩
  simp +decide [filtrarPorFecha, pasaFecha, c3Fs]

/-- Witness for C3 at a concrete input. -/
theorem c3_full_range_witness :
    listMin? (c3Fs.filterMap (fun f => f.fecha_factura)) = some 20250102
    ∧ listMax? (c3Fs.filterMap (fun f => f.fecha_factura)) = some 20250102
    ∧ filtrarPorFecha c3Fs (some 20250102) (some 20250102)
        = c3Fs.filter (fun f => f.fecha_factura.isSome) :=
  ⟨by decide, by decide, c3_full_range c3Fs 20250102 20250102 (by decide) (by decide)⟩

/-! ## C7 — primary-account selection -/

theorem pickMax_eq_none {α : Type} [LinearOrder α] (key : Movement → α)
    (l : List Movement) : pickMax key l = none ↔ l = [] := by
  cases l with
  | nil => simp [pickMax]
  | cons x xs =>
    simp only [pickMax]
    cases hx : pickMax key xs with
    | none => simp
    | some b => by_cases hk : key x < key b <;> simp [hk]

theorem pickMin_eq_none (key : Movement → WithTop Nat)
    (l : List Movement) : pickMin key l = none ↔ l = [] := by
  cases l with
  | nil => simp [pickMin]
  | cons x xs =>
    simp only [pickMin]
    cases hx : pickMin key xs with
    | none => simp
    | some b => by_cases hk : key b < key x <;> simp [hk]

theorem pickMax_ne_none {α : Type} [LinearOrder α] (key : Movement → α)
    (l : List Movement) (h : l ≠ []) : pickMax key l ≠ none := by
  cases l with
  | nil => exact absurd rfl h
  | cons x xs =>
    simp only [pickMax]
    cases hx : pickMax key xs with
    | none => simp
    | some b => by_cases hk : key x < key b <;> simp [hk]

theorem pickMax_mem {α : Type} [LinearOrder α] (key : Movement → α) :
    ∀ (l : List Movement) (m : Movement), pickMax key l = some m → m ∈ l := by
  intro l
  induction l with
  | nil => intro m h; cases h
  | cons x xs ih =>
    intro m h
    simp only [pickMax] at h
    cases hx : pickMax key xs with
    | none =>
      simp only [hx] at h
      injection h with h
      subst h
      exact List.mem_cons_self _ _
    | some b =>
      simp only [hx] at h
      by_cases hk : key x < key b
      · rw [if_pos hk] at h
        injection h with h
        subst h
        exact List.mem_cons_of_mem _ (ih b hx)
      · rw [if_neg hk] at h
        injection h with h
        subst h
        exact List.mem_cons_self _ _

theorem pickMax_le {α : Type} [LinearOrder α] (key : Movement → α) :
    ∀ (l : List Movement) (m : Movement), pickMax key l = some m →
      ∀ x ∈ l, key x ≤ key m := by
  intro l
  induction l with
  | nil => intro m h; cases h
  | cons x xs ih =>
    intro m h z hz
    simp only [pickMax] at h
    cases hx : pickMax key xs with
    | none =>
      simp only [hx] at h
      injection h with h
      subst h
      have hxs : xs = [] := (pickMax_eq_none key xs).mp hx
      subst hxs
      rcases List.mem_cons.mp hz with rfl | hzxs
      · exact le_refl _
      · cases hzxs
    | some b =>
      simp only [hx] at h
      by_cases hk : key x < key b
      · rw [if_pos hk] at h
        injection h with h
        subst h
        rcases List.mem_cons.mp hz with rfl | hzxs
        · exact le_of_lt hk
        · exact ih b hx z hzxs
      · rw [if_neg hk] at h
        injection h with h
        subst h
        rcases List.mem_cons.mp hz with rfl | hzxs
        · exact le_refl _
        · exact le_trans (ih b hx z hzxs) (not_lt.mp hk)

theorem pickMin_ne_none (key : Movement → WithTop Nat)
    (l : List Movement) (h : l ≠ []) : pickMin key l ≠ none := by
  cases l with
  | nil => exact absurd rfl h
  | cons x xs =>
    simp only [pickMin]
    cases hx : pickMin key xs with
    | none => simp
    | some b => by_cases hk : key b < key x <;> simp [hk]

theorem pickMin_mem (key : Movement → WithTop Nat) :
    ∀ (l : List Movement) (m : Movement), pickMin key l = some m → m ∈ l := by
  intro l
  induction l with
  | nil => intro m h; cases h
  | cons x xs ih =>
    intro m h
    simp only [pickMin] at h
    cases hx : pickMin key xs with
    | none =>
      simp only [hx] at h
      injection h with h
      subst h
      exact List.mem_cons_self _ _
    | some b =>
      simp only [hx] at h
      by_cases hk : key b < key x
      · rw [if_pos hk] at h
        injection h with h
        subst h
        exact List.mem_cons_of_mem _ (ih b hx)
      · rw [if_neg hk] at h
        injection h with h
        subst h
        exact List.mem_cons_self _ _

theorem pickMin_le (key : Movement → WithTop Nat) :
    ∀ (l : List Movement) (m : Movement), pickMin key l = some m →
      ∀ x ∈ l, key m ≤ key x := by
  intro l
  induction l with
  | nil => intro m h; cases h
  | cons x xs ih =>
    intro m h z hz
    simp only [pickMin] at h
    cases hx : pickMin key xs with
    | none =>
      simp only [hx] at h
      injection h with h
      subst h
      have hxs : xs = [] := (pickMin_eq_none key xs).mp hx
      subst hxs
      rcases List.mem_cons.mp hz with rfl | hzxs
      · exact le_refl _
      · cases hzxs
    | some b =>
      simp only [hx] at h
      by_cases hk : key b < key x
      · rw [if_pos hk] at h
        injection h with h
        subst h
        rcases List.mem_cons.mp hz with rfl | hzxs
        · exact le_of_lt hk
        · exact ih b hx z hzxs
      · rw [if_neg hk] at h
        injection h with h
        subst h
        rcases List.mem_cons.mp hz with rfl | hzxs
        · exact le_refl _
        · exact le_trans (not_lt.mp hk) (ih b hx z hzxs)

/-- C7: the primary account of a global invoice is the account of a movement
attaining the largest positive debit for that reference; when the reference
has no positive-debit movement at all, it is the account of a chronologically
earliest movement (missing dates ordered last).  The selection is a pure
function of the movement list, hence deterministic. -/
theorem c7_primary_account (ms : List Movement) (r : String) (f : Factura)
    (hf : facturasGlobal ms r = some f) :
    ((∃ m ∈ movsDeRef ms r, esCargoPos m = true) →
      ∃ m ∈ movsDeRef ms r, esCargoPos m = true
        ∧ (∀ m2 ∈ movsDeRef ms r, esCargoPos m2 = true →
            m2.cargos.getD 0 ≤ m.cargos.getD 0)
        ∧ f.account_code = m.account_code ∧ f.account_name = m.account_name)
    ∧ ((∀ m ∈ movsDeRef ms r, esCargoPos m = false) →
      ∃ m ∈ movsDeRef ms r,
        (∀ m2 ∈ movsDeRef ms r, fechaKey m ≤ fechaKey m2)
        ∧ f.account_code = m.account_code ∧ f.account_name = m.account_name) := by
  obtain ⟨hne, rfl⟩ := facturasGlobal_some_eq ms r f hf
  constructor
  · rintro ⟨m0, hm0, hpos0⟩
    have hfil : (movsDeRef ms r).filter esCargoPos ≠ [] :=
      List.ne_nil_of_mem (List.mem_filter.mpr ⟨hm0, hpos0⟩)
    cases hpk : pickMax (fun m => m.cargos.getD 0) ((movsDeRef ms r).filter esCargoPos) with
    | none => exact absurd hpk (pickMax_ne_none _ _ hfil)
    | some m =>
      have hmem := pickMax_mem _ _ m hpk
      have hmax := pickMax_le _ _ m hpk
      obtain ⟨hmem1, hmem2⟩ := List.mem_filter.mp hmem
      refine ⟨m, hmem1, hmem2, ?_, ?_, ?_⟩
      · intro m2 hm2 hpos2
        exact hmax m2 (List.mem_filter.mpr ⟨hm2, hpos2⟩)
      · simp [mainAccount, hpk]
      · simp [mainAccount, hpk]
  · intro hall
    have hfil : (movsDeRef ms r).filter esCargoPos = [] := by
      rw [List.filter_eq_nil_iff]
      intro a ha
      simp [hall a ha]
    cases hpk : pickMin fechaKey (movsDeRef ms r) with
    | none => exact absurd hpk (pickMin_ne_none _ _ hne)
    | some m =>
      have hmem := pickMin_mem _ _ m hpk
      have hmin := pickMin_le _ _ m hpk
      refine ⟨m, hmem, fun m2 hm2 => hmin m2 hm2, ?_, ?_⟩
      · simp [mainAccount, hfil, hpk, pickMax]
      · simp [mainAccount, hfil, hpk, pickMax]

def c7Movs : List Movement :=
  [{ referencia := some "R", cargos := some 10,
     account_code := some "001-001-001-001", account_name := some (.str "A") },
   { referencia := some "R", cargos := some 3,
     account_code := some "002-001-001-001", account_name := some (.str "B") }]

def c7F : Factura :=
  { fecha_factura := none, cargos_total := 13, abonos_total := 0,
    account_code := some "001-001-001-001", account_name := some (.str "A"),
    num_cuentas := 2, cruza_cuentas := true, saldo_factura := 13 }

/-- Witness for C7 at a concrete input. -/
theorem c7_primary_account_witness :
    facturasGlobal c7Movs "R" = some c7F
    ∧ (((∃ m ∈ movsDeRef c7Movs "R", esCargoPos m = true) →
        ∃ m ∈ movsDeRef c7Movs "R", esCargoPos m = true
          ∧ (∀ m2 ∈ movsDeRef c7Movs "R", esCargoPos m2 = true →
              m2.cargos.getD 0 ≤ m.cargos.getD 0)
          ∧ c7F.account_code = m.account_code ∧ c7F.account_name = m.account_name)
      ∧ ((∀ m ∈ movsDeRef c7Movs "R", esCargoPos m = false) →
        ∃ m ∈ movsDeRef c7Movs "R",
          (∀ m2 ∈ movsDeRef c7Movs "R", fechaKey m ≤ fechaKey m2)
          ∧ c7F.account_code = m.account_code ∧ c7F.account_name = m.account_name)) := by
  have hf : facturasGlobal c7Movs "R" = some c7F := by
    simp +decide [facturasGlobal, movsDeRef, optSum, c7Movs, c7F, mainAccount, pickMax,
      esCargoPos, listMin?]
    norm_num
  exact ⟨hf, c7_primary_account c7Movs "R" c7F hf⟩

/-! ## C5 — forward-fill context propagation -/

theorem movsFrom_append (ctx : Ctx) (l1 l2 : List Row) :
    movsFrom ctx (l1 ++ l2) = movsFrom ctx l1 ++ movsFrom (ctxAfter ctx l1) l2 := by
  induction l1 generalizing ctx with
  | nil => simp [movsFrom, ctxAfter]
  | cons r rs ih =>
    simp only [List.cons_append, movsFrom]
    by_cases hd : isDateRow r = true
    · simp [hd, ih, ctxAfter, List.foldl_cons]
    · simp [hd, ih, ctxAfter, List.foldl_cons]

theorem ctxAfter_no_header (ctx : Ctx) (l : List Row)
    (h : ∀ r ∈ l, isAccountHeader r = false) : ctxAfter ctx l = ctx := by
  induction l generalizing ctx with
  | nil => rfl
  | cons r rs ih =>
    have hr : isAccountHeader r = false := h r (by simp)
    have hupd : updateCtx ctx r = ctx := by simp [updateCtx, hr]
    simp [ctxAfter, List.foldl_cons, hupd]
    exact ih ctx (fun x hx => h x (by simp [hx]))

theorem movsFrom_ctx_of_no_header (ctx : Ctx) (l : List Row)
    (h : ∀ r ∈ l, isAccountHeader r = false) :
    ∀ m ∈ movsFrom ctx l, m.account_code = ctx.code ∧ m.account_name = ctx.name := by
  induction l generalizing ctx with
  | nil => intro m hm; cases hm
  | cons r rs ih =>
    intro m hm
    have hr : isAccountHeader r = false := h r (by simp)
    have hupd : updateCtx ctx r = ctx := by simp [updateCtx, hr]
    simp only [movsFrom, hupd] at hm
    by_cases hd : isDateRow r = true
    · rw [if_pos hd] at hm
      rcases List.mem_cons.mp hm with rfl | hm2
      · simp [mkMovement]
      · exact ih ctx (fun x hx => h x (by simp [hx])) m hm2
    · rw [if_neg hd] at hm
      exact ih ctx (fun x hx => h x (by simp [hx])) m hm

/-- C5 (amended): every movement row strictly between a header row `h1` and
the next header is assigned the account context established at `h1`; but
movement rows positioned before the first header row are NOT excluded from
the valid-movement set — they are retained (whenever they carry a reference)
with a missing account context. -/
theorem c5_context_propagation (pre mid tail : List Row) (h1 : Row)
    (hh : isAccountHeader h1 = true)
    (hn : h1.c1 ≠ Cell.empty)
    (hd1 : isDateRow h1 = false)
    (hpre : ∀ r ∈ pre, isAccountHeader r = false)
    (hmid : ∀ r ∈ mid, isAccountHeader r = false) :
    movimientos (pre ++ h1 :: mid ++ tail)
      = movimientos pre
        ++ movsFrom ⟨some (cellStr h1.c0), some h1.c1⟩ mid
        ++ movsFrom ⟨some (cellStr h1.c0), some h1.c1⟩ tail
    ∧ (∀ m ∈ movimientos pre, m.account_code = none ∧ m.account_name = none)
    ∧ (∀ m ∈ movsFrom ⟨some (cellStr h1.c0), some h1.c1⟩ mid,
        m.account_code = some (cellStr h1.c0) ∧ m.account_name = some h1.c1) := by
  have hctx : ∀ c : Ctx, updateCtx c h1 = ⟨some (cellStr h1.c0), some h1.c1⟩ := by
    intro c
    unfold updateCtx
    rw [if_pos hh]
    cases hc : h1.c1 with
    | empty => exact absurd hc hn
    | str s => rfl
    | num q => rfl
  refine ⟨?_, ?_, ?_⟩
  · rw [movimientos, movsFrom_append, movsFrom_append]
    have h1step : ∀ c : Ctx, movsFrom c (h1 :: mid)
        = movsFrom ⟨some (cellStr h1.c0), some h1.c1⟩ mid := by
      intro c
      simp [movsFrom, hd1, hctx]
    have hafter : ctxAfter {} (pre ++ h1 :: mid) = ⟨some (cellStr h1.c0), some h1.c1⟩ := by
      simp only [ctxAfter, List.foldl_append, List.foldl_cons, hctx]
      exact ctxAfter_no_header _ mid hmid
    rw [h1step, hafter]
    rfl
  · exact fun m hm => movsFrom_ctx_of_no_header {} pre hpre m hm
  · exact fun m hm => movsFrom_ctx_of_no_header _ mid hmid m hm

def c5Grid : List Row :=
  [{ c0 := .str "02/Ene/2025", c4 := .str "F9", c5 := .num 5 }]

/-- C5 counterexample: a grid consisting of a single movement row before any
header row still yields a valid movement (the reference is present), with a
missing account context — the claim says such rows must be excluded from the
valid-movement set. -/
theorem c5_counterexample :
    (movsValid c5Grid).map (fun m => (m.referencia, m.account_code)) = [(some "F9", none)]
    ∧ movsValid c5Grid ≠ [] := by
  decide

def c5Pre : List Row := [{ c0 := .str "REPORTE" }]

def c5H1 : Row :=
  { c0 := .str "110-001-001-001", c1 := .str "CLIENTE X", c6 := .str "Saldo inicial :" }

def c5Mid : List Row := [{ c0 := .str "03/Feb/2025", c4 := .str "F1", c5 := .num 10 }]

/-- Witness for C5 at a concrete input. -/
theorem c5_context_propagation_witness :
    movimientos (c5Pre ++ c5H1 :: c5Mid ++ [])
      = movimientos c5Pre
        ++ movsFrom ⟨some (cellStr c5H1.c0), some c5H1.c1⟩ c5Mid
        ++ movsFrom ⟨some (cellStr c5H1.c0), some c5H1.c1⟩ []
    ∧ (∀ m ∈ movimientos c5Pre, m.account_code = none ∧ m.account_name = none)
    ∧ (∀ m ∈ movsFrom ⟨some (cellStr c5H1.c0), some c5H1.c1⟩ c5Mid,
        m.account_code = some (cellStr c5H1.c0) ∧ m.account_name = some c5H1.c1) :=
  c5_context_propagation c5Pre c5Mid [] c5H1 (by decide) (by decide) (by decide)
    (by decide) (by decide)

/-! ## C6 — aggregation conservation -/

theorem facturasGlobal_eq_none (ms : List Movement) (r : String) :
    facturasGlobal ms r = none ↔ movsDeRef ms r = [] := by
  by_cases h : (movsDeRef ms r).isEmpty = true
  · simp [facturasGlobal, h, List.isEmpty_iff.mp h]
  · simp [facturasGlobal, h]
    exact fun hnil => h (by simp [hnil])

theorem optSum_sub_eq_sum_net (l : List Movement) :
    optSum (l.map (fun m => m.cargos)) - optSum (l.map (fun m => m.abonos))
      = (l.map (fun m => m.cargos.getD 0 - m.abonos.getD 0)).sum := by
  induction l with
  | nil => simp [optSum]
  | cons m ms ih =>
    simp only [List.map_cons, optSum_cons, List.sum_cons]
    linarith [ih]

theorem saldoGlobalDe_eq (ms : List Movement) (r : String) :
    saldoGlobalDe ms r
      = ((movsDeRef ms r).map (fun m => m.cargos.getD 0 - m.abonos.getD 0)).sum := by
  unfold saldoGlobalDe
  cases hf : facturasGlobal ms r with
  | none => simp [(facturasGlobal_eq_none ms r).mp hf]
  | some f =>
    obtain ⟨-, rfl⟩ := facturasGlobal_some_eq ms r f hf
    exact optSum_sub_eq_sum_net _

theorem saldoCuenta_eq (ms : List Movement) (c : String) (n : Cell) (r : String) :
    saldoCuenta ms c n r
      = ((movsDeCuentaRef ms c n r).map (fun m => m.cargos.getD 0 - m.abonos.getD 0)).sum := by
  unfold saldoCuenta facturasCuenta
  by_cases h : (movsDeCuentaRef ms c n r).isEmpty = true
  · simp [h, List.isEmpty_iff.mp h]
  · simp only [h, if_false, Bool.false_eq_true]
    exact optSum_sub_eq_sum_net _

theorem sum_filter_add_sum_filter_not (l : List Movement) (p : Movement → Bool)
    (f : Movement → Rat) :
    ((l.filter p).map f).sum + ((l.filter (fun m => !p m)).map f).sum = (l.map f).sum := by
  induction l with
  | nil => simp
  | cons x xs ih =>
    by_cases hx : p x = true
    · simp only [List.filter_cons, hx, Bool.not_true, if_true, if_false,
        List.map_cons, List.sum_cons]
      simp
      linarith [ih]
    · simp only [List.filter_cons, hx, if_false, Bool.false_eq_true]
      simp [hx, List.sum_cons]
      linarith [ih]

theorem sum_partition {K : Type} [DecidableEq K] (key : Movement → K) (f : Movement → Rat) :
    ∀ (keys : List K), keys.Nodup → ∀ (l : List Movement), (∀ m ∈ l, key m ∈ keys) →
      (keys.map (fun p => ((l.filter (fun m => decide (key m = p))).map f).sum)).sum
        = (l.map f).sum := by
  intro keys
  induction keys with
  | nil =>
    intro _ l hcov
    have hl : l = [] := by
      cases l with
      | nil => rfl
      | cons x xs => exact absurd (hcov x (by simp)) (List.not_mem_nil _)
    subst hl
    simp
  | cons p ps ih =>
    intro hnd l hcov
    obtain ⟨hp, hnd'⟩ := List.nodup_cons.mp hnd
    simp only [List.map_cons, List.sum_cons]
    have hcov' : ∀ m ∈ l.filter (fun m => !decide (key m = p)), key m ∈ ps := by
      intro m hm
      obtain ⟨hml, hmp⟩ := List.mem_filter.mp hm
      rcases List.mem_cons.mp (hcov m hml) with h1 | h2
      · exfalso
        simp at hmp
        exact hmp h1
      · exact h2
    have hih := ih hnd' (l.filter (fun m => !decide (key m = p))) hcov'
    have hq : ∀ q ∈ ps,
        (l.filter (fun m => !decide (key m = p))).filter (fun m => decide (key m = q))
          = l.filter (fun m => decide (key m = q)) := by
      intro q hq2
      rw [List.filter_filter]
      apply List.filter_congr
      intro m hml
      by_cases hk : key m = q
      · have hne : q ≠ p := fun habs => hp (habs ▸ hq2)
        simp [hk, hne]
      · simp [hk]
    have hmapeq : ps.map (fun q => ((l.filter (fun m => decide (key m = q))).map f).sum)
        = ps.map (fun q => (((l.filter (fun m => !decide (key m = p))).filter
            (fun m => decide (key m = q))).map f).sum) := by
      apply List.map_congr_left
      intro q hq2
      rw [hq q hq2]
    rw [hmapeq, hih, ← sum_filter_add_sum_filter_not l (fun m => decide (key m = p)) f]

theorem filterMap_eq_map_of_some {β : Type} (g : Movement → Option β) (k : Movement → β) :
    ∀ (l : List Movement), (∀ m ∈ l, g m = some (k m)) → l.filterMap g = l.map k := by
  intro l
  induction l with
  | nil => intro _; rfl
  | cons x xs ih =>
    intro h
    simp [List.filterMap_cons, h x (by simp), ih (fun y hy => h y (by simp [hy]))]

/-- C6 (amended): for every reference all of whose movements carry a present
account code and name, the net balance of the global invoice equals the sum
of the per-account invoice net balances over the involved accounts.  (A
movement with a missing account context counts toward the global net but is
dropped from every per-account group, breaking the equality.) -/
theorem c6_conservation (ms : List Movement) (r : String)
    (h : ∀ m ∈ movsDeRef ms r, m.account_code.isSome ∧ m.account_name.isSome) :
    saldoGlobalDe ms r
      = ((accountPairs ms r).map (fun p => saldoCuenta ms p.1 p.2 r)).sum := by
  classical
  rw [saldoGlobalDe_eq]
  have hkey : ∀ m ∈ movsDeRef ms r,
      (match m.account_code, m.account_name with
        | some c, some n => some (c, n)
        | _, _ => none)
        = some (m.account_code.getD "", m.account_name.getD Cell.empty) := by
    intro m hm
    obtain ⟨hc, hn⟩ := h m hm
    obtain ⟨c, hc'⟩ := Option.isSome_iff_exists.mp hc
    obtain ⟨n, hn'⟩ := Option.isSome_iff_exists.mp hn
    rw [hc', hn']
    rfl
  have hpairs : accountPairs ms r
      = ((movsDeRef ms r).map
          (fun m => (m.account_code.getD "", m.account_name.getD Cell.empty))).dedup := by
    unfold accountPairs
    rw [filterMap_eq_map_of_some _ _ _ hkey]
  have hterm : ∀ p ∈ accountPairs ms r,
      saldoCuenta ms p.1 p.2 r
        = (((movsDeRef ms r).filter (fun m =>
            decide ((m.account_code.getD "", m.account_name.getD Cell.empty) = p))).map
              (fun m => m.cargos.getD 0 - m.abonos.getD 0)).sum := by
    intro p hp
    rw [saldoCuenta_eq]
    congr 1
    have hsub : movsDeCuentaRef ms p.1 p.2 r
        = (movsDeRef ms r).filter
            (fun m => decide (m.account_code = some p.1 ∧ m.account_name = some p.2)) := by
      unfold movsDeCuentaRef movsDeRef
      rw [List.filter_filter]
      apply List.filter_congr
      intro m hml
      by_cases h1 : m.account_code = some p.1 <;>
        by_cases h2 : m.account_name = some p.2 <;>
          by_cases h3 : m.referencia = some r <;>
            simp [h1, h2, h3]
    rw [hsub]
    congr 1
    apply List.filter_congr
    intro m hml
    obtain ⟨hc, hn⟩ := h m hml
    obtain ⟨c, hc'⟩ := Option.isSome_iff_exists.mp hc
    obtain ⟨n, hn'⟩ := Option.isSome_iff_exists.mp hn
    simp [hc', hn', Prod.ext_iff, eq_comm]
  have hmapeq2 : (accountPairs ms r).map (fun p => saldoCuenta ms p.1 p.2 r)
      = (accountPairs ms r).map (fun p =>
          (((movsDeRef ms r).filter (fun m =>
            decide ((m.account_code.getD "", m.account_name.getD Cell.empty) = p))).map
              (fun m => m.cargos.getD 0 - m.abonos.getD 0)).sum) := by
    apply List.map_congr_left
    intro p hp
    rw [hterm p hp]
  rw [hmapeq2, hpairs]
  exact (sum_partition (fun m => (m.account_code.getD "", m.account_name.getD Cell.empty))
    (fun m => m.cargos.getD 0 - m.abonos.getD 0) _ (List.nodup_dedup _) _
    (fun m hm => List.mem_dedup.mpr (List.mem_map_of_mem _ hm))).symm

def c6Grid : List Row :=
  [{ c0 := .str "02/Ene/2025", c4 := .str "A", c5 := .str "5" }]

/-- C6 counterexample: a valid movement set produced from a grid whose only
movement row precedes any header (so its account context is missing) has a
global net of 5 for reference "A", while the sum of per-account nets is 0 —
the conservation equality fails for movements without an account. -/
theorem c6_counterexample :
    saldoGlobalDe (movsValid c6Grid) "A" = 5
    ∧ ((accountPairs (movsValid c6Grid) "A").map
        (fun p => saldoCuenta (movsValid c6Grid) p.1 p.2 "A")).sum = 0
    ∧ (5 : Rat) ≠ 0 := by
  refine ⟨?_, ?_, by norm_num⟩
  · simp +decide [saldoGlobalDe, facturasGlobal, movsDeRef, movsValid, movimientos,
      movsFrom, mkMovement, updateCtx, optSum, c6Grid, toNumericCell, parseDecimal,
      parseUnsigned]
    try norm_num
  · simp +decide [accountPairs, movsDeRef, movsValid, movimientos, movsFrom,
      mkMovement, updateCtx, c6Grid]

def c6Movs : List Movement :=
  [{ referencia := some "N", cargos := some 7,
     account_code := some "001-001-001-001", account_name := some (.str "A") },
   { referencia := some "N", abonos := some 3,
     account_code := some "002-001-001-001", account_name := some (.str "B") }]

/-- Witness for C6 at a concrete input. -/
theorem c6_conservation_witness :
    (∀ m ∈ movsDeRef c6Movs "N", m.account_code.isSome ∧ m.account_name.isSome)
    ∧ saldoGlobalDe c6Movs "N" = 4
    ∧ saldoGlobalDe c6Movs "N"
        = ((accountPairs c6Movs "N").map (fun p => saldoCuenta c6Movs p.1 p.2 "N")).sum := by
  refine ⟨by decide, ?_, c6_conservation c6Movs "N" (by decide)⟩
  simp +decide [saldoGlobalDe, facturasGlobal, movsDeRef, optSum, c6Movs, mainAccount,
    pickMax, pickMin, esCargoPos, listMin?, fechaKey]
  norm_num

/-! ## C9 — missing global control total -/

theorem totRowsFrom_append (ctx : Ctx) (l1 l2 : List Row) :
    totRowsFrom ctx (l1 ++ l2) = totRowsFrom ctx l1 ++ totRowsFrom (ctxAfter ctx l1) l2 := by
  induction l1 generalizing ctx with
  | nil => simp [totRowsFrom, ctxAfter]
  | cons r rs ih =>
    simp only [List.cons_append, totRowsFrom]
    by_cases hd : strTrim (cellStr r.c4) = "Total:"
    · simp [hd, ih, ctxAfter, List.foldl_cons]
    · simp [hd, ih, ctxAfter, List.foldl_cons]

/-- C9: when the grid has no "Total Clientes :" row, every global
reconciliation metric depending on the global control total (reported debit,
credit, final balance, the implied opening balance, and the dashboard's
global difference) is reported as missing (`None`), never zero; and inserting
such a row (which is neither a header, a movement row for these metrics, nor
a per-account "Total:" row) leaves the per-account control totals untouched. -/
theorem c9_unavailable (g1 g2 : List Row) (t : Row) (k : String × Cell)
    (ht : isTotalClientesRow t = true)
    (hth : isAccountHeader t = false)
    (htt : strTrim (cellStr t.c4) ≠ "Total:")
    (hno : ∀ r ∈ g1 ++ g2, isTotalClientesRow r = false) :
    (resumenAuxiliar (g1 ++ g2)).total_cargos_aux = none
    ∧ (resumenAuxiliar (g1 ++ g2)).total_abonos_aux = none
    ∧ (resumenAuxiliar (g1 ++ g2)).saldo_final_aux = none
    ∧ (resumenAuxiliar (g1 ++ g2)).saldo_inicial_implicito = none
    ∧ diferenciaGlobal (resumenAuxiliar (g1 ++ g2)) = none
    ∧ totalesCuentasAux (g1 ++ t :: g2) k = totalesCuentasAux (g1 ++ g2) k := by
  have hfind : (g1 ++ g2).find? isTotalClientesRow = none := by
    rw [List.find?_eq_none]
    intro r hr
    simp [hno r hr]
  have hrows : totRowsFrom {} (g1 ++ t :: g2) = totRowsFrom {} (g1 ++ g2) := by
    rw [totRowsFrom_append, totRowsFrom_append]
    congr 1
    have hupd : updateCtx (ctxAfter {} g1) t = ctxAfter {} g1 := by
      simp [updateCtx, hth]
    simp [totRowsFrom, htt, hupd]
  refine ⟨?_, ?_, ?_, ?_, ?_, ?_⟩
  · simp [resumenAuxiliar, hfind]
  · simp [resumenAuxiliar, hfind]
  · simp [resumenAuxiliar, hfind]
  · simp [resumenAuxiliar, hfind]
  · simp [diferenciaGlobal, resumenAuxiliar, hfind]
  · simp only [totalesCuentasAux]
    rw [hrows]

def c9Hdr : Row :=
  { c0 := .str "110-001-001-001", c1 := .str "CLIENTE X", c6 := .str "Saldo inicial :" }

def c9Mv : Row := { c0 := .str "02/Ene/2025", c4 := .str "F1", c5 := .num 100 }

def c9Tot : Row := { c4 := .str "Total:", c5 := .num 100, c6 := .num 0, c7 := .num 100 }

def c9T : Row :=
  { c0 := .str "Total Clientes :", c1 := .num 100, c2 := .num 0, c3 := .num 100 }

/-- Witness for C9 at a concrete input. -/
theorem c9_unavailable_witness :
    ((resumenAuxiliar ([c9Hdr, c9Mv, c9Tot] ++ [])).total_cargos_aux = none
      ∧ (resumenAuxiliar ([c9Hdr, c9Mv, c9Tot] ++ [])).total_abonos_aux = none
      ∧ (resumenAuxiliar ([c9Hdr, c9Mv, c9Tot] ++ [])).saldo_final_aux = none
      ∧ (resumenAuxiliar ([c9Hdr, c9Mv, c9Tot] ++ [])).saldo_inicial_implicito = none
      ∧ diferenciaGlobal (resumenAuxiliar ([c9Hdr, c9Mv, c9Tot] ++ [])) = none
      ∧ totalesCuentasAux ([c9Hdr, c9Mv, c9Tot] ++ c9T :: [])
          ("110-001-001-001", Cell.str "CLIENTE X")
        = totalesCuentasAux ([c9Hdr, c9Mv, c9Tot] ++ [])
            ("110-001-001-001", Cell.str "CLIENTE X"))
    ∧ totalesCuentasAux ([c9Hdr, c9Mv, c9Tot] ++ [])
        ("110-001-001-001", Cell.str "CLIENTE X") = some (100, 0, 100) := by
  refine ⟨c9_unavailable [c9Hdr, c9Mv, c9Tot] [] c9T
    ("110-001-001-001", Cell.str "CLIENTE X") (by decide) (by decide) (by decide)
    (by decide), ?_⟩
  simp +decide [totalesCuentasAux, totRowsFrom, updateCtx, optSum, c9Hdr, c9Mv, c9Tot]
  try norm_num

end AuditorSaldos
